import Mathlib

/-!
Verification of the `barcode.codex` module (wopozka/python-barcode):
a shallow embedding of the Code 128 encoder and of the GS1-128 AI
normalizer, together with theorems settling the specification claims.

Strings of the Python source are modelled as `List Char`; machine
integers do not occur (Python integers are unbounded, modelled as `Nat`
or `Int`); Python exceptions are modelled with `Except PyErr`.
`print` diagnostics are side effects on stdout only and are dropped.
-/

/-- Python exceptions that the modelled code can raise. -/
inductive PyErr where
  | typeError
  | indexError
deriving DecidableEq

/-- Python `str.isdigit` on a single character.  The inputs handled by this
module are ASCII plus the FNC control characters, on which `str.isdigit`
coincides with the decimal-digit test; other Unicode digit characters are
not modelled. -/
def pyIsDigit (c : Char) : Bool :=
  c.isDigit

/-- Python `str.isdigit` on a whole string: nonempty and all digits. -/
def pyStrIsDigit (s : String) : Bool :=
  !s.toList.isEmpty && s.toList.all pyIsDigit

/-- Python `int(s)` for a string of decimal digits. -/
def pyInt (l : List Char) : Nat :=
  l.foldl (fun a c => 10 * a + (c.toNat - 48)) 0

/-- Python `str.zfill`: pad with zeros on the left to the given width,
keeping a leading sign in place. -/
def zfill (l : List Char) (w : Nat) : List Char :=
  match l with
  | c :: rest =>
      if c = '+' ∨ c = '-' then c :: (List.replicate (w - l.length) '0' ++ rest)
      else List.replicate (w - l.length) '0' ++ l
  | [] => List.replicate w '0'

/-- Python `'.' in val`. -/
def hasDot : List Char → Bool
  | [] => false
  | c :: r => if c = '.' then true else hasDot r

/-- Python `val.split('.', 1)`: the part before the first dot and the part
after it (the second component is meaningful only when a dot occurs). -/
def pySplitDot : List Char → List Char × List Char
  | [] => ([], [])
  | c :: r => if c = '.' then ([], r) else
      ((pySplitDot r).1.cons c, (pySplitDot r).2)

/-- Python `str(n)` for a natural number. -/
def numStr (n : Nat) : List Char :=
  (toString n).toList

/-- Strip a single leading `+` or `-` sign. -/
def stripSign (l : List Char) : List Char :=
  match l with
  | c :: r => if c = '+' ∨ c = '-' then r else l
  | [] => []

/-- Exponent suffix of a Python float literal: empty, or `e`/`E` followed
by an optionally signed nonempty digit string. -/
def expOk : List Char → Bool
  | [] => true
  | e :: r =>
      if e = 'e' ∨ e = 'E' then
        let r1 := stripSign r
        !r1.isEmpty && r1.all pyIsDigit
      else false

/-- Whether Python `float(val)` succeeds.  Modelled from the spec (the
`float` builtin is not part of the repository): an optionally signed
digit string with at most one decimal point, at least one digit, and an
optional exponent.  `inf`/`nan`, underscores and surrounding whitespace
are not modelled. -/
def pyFloatOk (l : List Char) : Bool :=
  match (stripSign l).dropWhile pyIsDigit with
  | c :: r2 =>
      if c = '.' then
        (!((stripSign l).takeWhile pyIsDigit).isEmpty ||
          !(r2.takeWhile pyIsDigit).isEmpty) && expOk (r2.dropWhile pyIsDigit)
      else !((stripSign l).takeWhile pyIsDigit).isEmpty && expOk (c :: r2)
  | [] => !((stripSign l).takeWhile pyIsDigit).isEmpty && expOk []

/-- The FNC1 character `"\xf1"` (`Code128`/`Gs1_128` class attribute
`FNC1_CHAR`, also used by `Gs1_128_AI` as the separator `FC_CHAR`). -/
def FNC1_CHAR : Char := Char.ofNat 0xF1

/-- Modelled from the spec: the charset-tables module
(`barcode/charsets/code128.py`) is not under `src/`.  Charset A maps the
printable characters `' '..'_'` to `0..63`, the control characters
`'\x00'..'\x1f'` to `64..95`, the FNC characters and the special keys
`SHIFT`/`TO_C`/`TO_B` to `96..102` (spec section 2: "A = control+upper-ASCII
set", plus per-charset switch symbol values). -/
def tableA (k : String) : Option Nat :=
  match k.toList with
  | [c] =>
      let n := c.toNat
      if 32 ≤ n ∧ n ≤ 95 then some (n - 32)
      else if n ≤ 31 then some (n + 64)
      else if n = 0xF3 then some 96
      else if n = 0xF2 then some 97
      else if n = 0xF4 then some 101
      else if n = 0xF1 then some 102
      else none
  | _ =>
      if k = "SHIFT" then some 98
      else if k = "TO_C" then some 99
      else if k = "TO_B" then some 100
      else none

/-- Modelled from the spec: charset B maps the printable characters
`' '..'\x7f'` to `0..95` ("B = full printable ASCII"), the FNC characters
and the special keys `SHIFT`/`TO_C`/`TO_A` to `96..102`. -/
def tableB (k : String) : Option Nat :=
  match k.toList with
  | [c] =>
      let n := c.toNat
      if 32 ≤ n ∧ n ≤ 127 then some (n - 32)
      else if n = 0xF3 then some 96
      else if n = 0xF2 then some 97
      else if n = 0xF4 then some 100
      else if n = 0xF1 then some 102
      else none
  | _ =>
      if k = "SHIFT" then some 98
      else if k = "TO_C" then some 99
      else if k = "TO_A" then some 101
      else none

/-- Modelled from the spec: charset C holds only the FNC1 character and
the switch keys `TO_B`/`TO_A`; digit pairs are packed by the encoder
itself. -/
def tableC (k : String) : Option Nat :=
  match k.toList with
  | [c] => if c = FNC1_CHAR then some 102 else none
  | _ =>
      if k = "TO_B" then some 100
      else if k = "TO_A" then some 101
      else none

/-- Modelled from the spec: `code128.START_CODES`, the START symbol value
per charset (`A` 103, `B` 104, `C` 105).  The source indexes a
three-key dict; a charset outside `A`/`B`/`C` never occurs. -/
def START_CODES (c : Char) : Nat :=
  if c = 'A' then 103 else if c = 'B' then 104 else 105

/-- Modelled from the spec: `code128.TO`, folding a leading charset-switch
symbol into the combined START code (`101 → 103`, `100 → 104`,
`99 → 105`). -/
def TO (n : Nat) : Option Nat :=
  if n = 101 then some 103
  else if n = 100 then some 104
  else if n = 99 then some 105
  else none

/-- The mutable scratch state of a `Code128` instance: the fields
`_charset` and `_buffer`. -/
structure St where
  charset : Char
  buffer : List Char
deriving DecidableEq

/-- `Code128._guess_charset`: charset `C` for all-digit input, else `B`. -/
def _guess_charset (code : List Char) : Char :=
  if code.all pyIsDigit then 'C' else 'B'

/-- The state of a freshly constructed `Code128` instance
(`self._charset = self._guess_charset(code)`, `self._buffer = ""`). -/
def Code128.init (code : List Char) : St :=
  ⟨_guess_charset code, []⟩

/-- `Code128._convert`: translate a key (a one-character string, or a
switch key such as `TO_A`) under the given charset; in charset `C` a
digit is buffered, and a second buffered digit flushes to a packed
symbol value.  Returns the emitted value, if any, and the new buffer.
A `none` in charsets `A`/`B` corresponds to a `KeyError` in the source,
unreachable for inputs over the Code 128 alphabet. -/
def _convert (charset : Char) (buffer : List Char) (key : String) :
    Option Nat × List Char :=
  if charset = 'A' then (tableA key, buffer)
  else if charset = 'B' then (tableB key, buffer)
  else if charset = 'C' then
    match tableC key with
    | some v => (some v, buffer)
    | none =>
        if pyStrIsDigit key then
          let buffer2 := buffer ++ key.toList
          if buffer2.length = 2 then (some (pyInt buffer2), [])
          else (none, buffer2)
        else (none, buffer)
  else (none, buffer)

/-- The `TO_A`/`TO_B`/`TO_C` key for a target charset. -/
def switchKey (which : Char) : String :=
  if which = 'A' then "TO_A" else if which = 'B' then "TO_B" else "TO_C"

/-- `Code128._new_charset`: emit the switch code for `which` (looked up
under the current charset) and change the active charset. -/
def _new_charset (st : St) (which : Char) : List Nat × St :=
  ((_convert st.charset st.buffer (switchKey which)).1.toList,
   ⟨which, (_convert st.charset st.buffer (switchKey which)).2⟩)

/-- The `look_next` closure of `Code128._maybe_switch_charset`: strictly
more than 3 leading characters of the (at most 10-character) lookahead
are digits. -/
def lookNext (next_ : List Char) : Bool :=
  decide (3 < (next_.takeWhile pyIsDigit).length)

/-- `Code128._maybe_switch_charset` at the position whose suffix of the
code is `suffix` (the current character is its head, the lookahead its
first 10 characters).  Returns the emitted switch codes, the new state,
and a ghost log — not present in the source — recording, for each
`_new_charset` call, the target charset and the suffix at which it
happened. -/
def _maybe_switch_charset (st : St) (suffix : List Char) :
    List Nat × St × List (Char × List Char) :=
  match suffix with
  | [] => ([], st, [])
  | char :: _ =>
    if st.charset = 'C' ∧ pyIsDigit char = false then
      let r :=
        if (tableB (String.singleton char)).isSome then
          ((_new_charset st 'B').1, (_new_charset st 'B').2, [('B', suffix)])
        else if (tableA (String.singleton char)).isSome then
          ((_new_charset st 'A').1, (_new_charset st 'A').2, [('A', suffix)])
        else ([], st, ([] : List (Char × List Char)))
      if r.2.1.buffer.length = 1 then
        (r.1 ++ (_convert r.2.1.charset r.2.1.buffer
            (String.singleton (r.2.1.buffer.headD 'x'))).1.toList,
         ⟨r.2.1.charset, []⟩, r.2.2)
      else r
    else if st.charset = 'B' then
      if lookNext (suffix.take 10) then
        ((_new_charset st 'C').1, (_new_charset st 'C').2, [('C', suffix)])
      else if (tableB (String.singleton char)).isSome = false ∧
          (tableA (String.singleton char)).isSome then
        ((_new_charset st 'A').1, (_new_charset st 'A').2, [('A', suffix)])
      else ([], st, [])
    else if st.charset = 'A' then
      if lookNext (suffix.take 10) then
        ((_new_charset st 'C').1, (_new_charset st 'C').2, [('C', suffix)])
      else if (tableA (String.singleton char)).isSome = false ∧
          (tableB (String.singleton char)).isSome then
        ((_new_charset st 'B').1, (_new_charset st 'B').2, [('B', suffix)])
      else ([], st, [])
    else ([], st, [])

/-- One iteration of the loop in `Code128._build`: maybe switch charset,
then convert the current character. -/
def encodeStep (st : St) (suffix : List Char) :
    List Nat × St × List (Char × List Char) :=
  match suffix with
  | [] => ([], st, [])
  | c :: _ =>
      let m := _maybe_switch_charset st suffix
      let cv := _convert m.2.1.charset m.2.1.buffer (String.singleton c)
      (m.1 ++ cv.1.toList, ⟨m.2.1.charset, cv.2⟩, m.2.2)

/-- The whole loop of `Code128._build` over the input characters. -/
def encodeBody (st : St) : List Char → List Nat × St × List (Char × List Char)
  | [] => ([], st, [])
  | c :: rest =>
      let s := encodeStep st (c :: rest)
      let t := encodeBody s.2.1 rest
      (s.1 ++ t.1, t.2.1, s.2.2 ++ t.2.2)

/-- The states visited by the loop of `Code128._build`: the state before
each iteration and the final state. -/
def bodyStates (st : St) : List Char → List St
  | [] => [st]
  | c :: rest => st :: bodyStates (encodeStep st (c :: rest)).2.1 rest

/-- `Code128._build` before the `_try_to_optimize` rewrite: START code,
body, and the final flush of a single buffered digit (switch to `B`,
emit it, clear the buffer).  Returns the encoded values, the final
state, and the ghost switch log. -/
def buildEncoded (code : List Char) (st : St) :
    List Nat × St × List (Char × List Char) :=
  let b := encodeBody st code
  if b.2.1.buffer.length = 1 then
    let n := _new_charset b.2.1 'B'
    let cv := _convert n.2.charset n.2.buffer
        (String.singleton (n.2.buffer.headD 'x'))
    (START_CODES st.charset :: (b.1 ++ n.1 ++ cv.1.toList),
     ⟨n.2.charset, []⟩, b.2.2 ++ [('B', [])])
  else (START_CODES st.charset :: b.1, b.2.1, b.2.2)

/-- `Code128._try_to_optimize`: fold a leading switch code into the START
code.  The source indexes `encoded[1]`, an `IndexError` when fewer than
two values were emitted (which happens for the empty input). -/
def _try_to_optimize (encoded : List Nat) : Except PyErr (List Nat) :=
  match encoded with
  | e0 :: e1 :: rest =>
      match TO e1 with
      | some v => .ok (v :: rest)
      | none => .ok (e0 :: e1 :: rest)
  | _ => .error .indexError

/-- `Code128._build`. -/
def _build (code : List Char) (st : St) :
    Except PyErr (List Nat × St × List (Char × List Char)) :=
  let b := buildEncoded code st
  match _try_to_optimize b.1 with
  | .ok enc => .ok (enc, b.2.1, b.2.2)
  | .error e => .error e

/-- `Code128._calculate_checksum`: the first value plus each later value
times its position, modulo 103.  The source indexes `encoded[0]`; the
empty case (an `IndexError` there) is unreachable from `build`. -/
def csAux (i : Nat) : List Nat → Nat
  | [] => 0
  | v :: rest => i * v + csAux (i + 1) rest

/-- `Code128._calculate_checksum`. -/
def _calculate_checksum (encoded : List Nat) : Nat :=
  match encoded with
  | [] => 0
  | e0 :: rest => (e0 + csAux 1 rest) % 103

/-- `Code128.build` up to the symbol-value sequence: the encoded body with
the checksum appended.  The source further maps every value through the
static render table `CODES` and appends the STOP bars — pure rendering,
outside the encoder's output contract (spec sections 1 and 6). -/
def build (code : List Char) (st : St) : Except PyErr (List Nat × St) :=
  match _build code st with
  | .ok b => .ok (b.1 ++ [_calculate_checksum b.1], b.2.1)
  | .error e => .error e

/-- The claim's checksum formula, written independently of the source:
the symbol value at 0-based position `i` contributes `value * i`, except
position 0 which contributes `value` unweighted. -/
def wsAux (i : Nat) : List Nat → Nat
  | [] => 0
  | v :: rest => (if i = 0 then v else i * v) + wsAux (i + 1) rest

/-- The weighted sum over an emitted sequence, per the claim. -/
def weightedSum (l : List Nat) : Nat :=
  wsAux 0 l

/-- `no4Run code` holds when the code contains no run of 4 or more
consecutive digits: every suffix starts with at most 3 digits. -/
def no4Run (code : List Char) : Bool :=
  code.tails.all (fun t => decide ((t.takeWhile pyIsDigit).length ≤ 3))

/-- Membership in a list of string constants (a Python set / dict-key
test). -/
def memStr : List String → String → Bool
  | [], _ => false
  | k :: r, s => if s = k then true else memStr r s

/-- Lookup in an association list of string constants (a Python dict). -/
def lookupStr : List (String × String) → String → Option String
  | [], _ => none
  | p :: r, s => if s = p.1 then some p.2 else lookupStr r s

/-- Lookup in an association list with numeric values. -/
def lookupNat : List (String × Nat) → String → Option Nat
  | [], _ => none
  | p :: r, s => if s = p.1 then some p.2 else lookupNat r s

/-- `Gs1_128_AI.AI_NAME_TO_CODE` (symbolic AI name to numeric AI code). -/
def AI_NAME_TO_CODE : List (String × String) :=
  [("SSCC", "00"), ("GTIN", "01"), ("CONTENT", "02"), ("BATCH/LOT", "10"),
   ("BEST_BEFORE:", "15"), ("PROD_DATE", "11"), ("DUE_DATE", "12"),
   ("PACK_DATE", "13"), ("BEST_BEFORE", "15"), ("SELL_BY", "16"),
   ("USE_BY_OR_EXPIRY", "17"), ("VARIANT", "20"), ("SERIAL", "21"),
   ("CPV", "22"), ("TPX", "235"), ("ADDITIONAL_ID", "240"),
   ("CUST_PART_NO", "241"), ("MTO_VARIANT", "242"), ("PCN", "243"),
   ("SECONDARY_SERIAL", "250"), ("REF_TO_SOURCE", "251"), ("GTDI", "253"),
   ("GLM_EXTENSION", "254"), ("GCN", "255"), ("VAR_COUNT", "30"),
   ("COUNT", "37")]

/-- `Gs1_128_AI.AI_WITH_FNC1` (variable-length AIs that need a separator). -/
def AI_WITH_FNC1 : List String :=
  ["10", "21", "22", "235", "240", "241", "242", "243", "250", "251", "253",
   "254", "255", "30", "37", "390", "391", "392", "393", "394", "395",
   "400", "401", "402", "403", "420", "421", "422", "423", "424", "425",
   "426", "427", "4300", "4301", "4302", "4303", "4304", "4305", "4306",
   "4307", "4308", "4309", "4330", "4331", "4332", "4333", "7001", "7002",
   "7003", "7004", "7005", "7006", "7007", "7008", "7009", "7010", "7011",
   "7020", "7021", "7022", "7023", "703", "7040", "710", "711", "712",
   "713", "714", "715", "723", "7240", "7241", "7242", "8001", "8002",
   "8003", "8004", "8005", "8006", "8007", "8008", "8009", "8010", "8011",
   "8012", "8013", "8017", "8018", "8019", "8020", "8030", "8110", "8026",
   "8111", "8112", "8200", "90", "91", "92", "93", "94", "95", "96", "97",
   "98", "99"]

/-- `Gs1_128_AI.AI_VS_FIXED_LENGTH` (AI code to expected value length). -/
def AI_VS_FIXED_LENGTH : List (String × Nat) :=
  [("00", 18), ("01", 14), ("02", 14), ("11", 6), ("12", 6), ("13", 6),
   ("15", 6), ("16", 6), ("17", 6), ("20", 2)]

/-- `Gs1_128_AI.AI_VS_FIXED_LENGTH_WITH_DECIMAL` (3-digit decimal-scaled
AI family). -/
def AI_VS_FIXED_LENGTH_WITH_DECIMAL : List String :=
  ["310", "311", "312", "313", "314", "315", "316", "320", "321", "322",
   "323", "324", "325", "326", "327", "328", "329", "330", "331", "332",
   "333", "334", "335", "336", "337"]

/-- The date-format AI codes tested in `Gs1_128_AI.get_code_and_val`. -/
def DATE_AIS : List String :=
  ["11", "12", "13", "15", "16", "17"]

/-- `Gs1_128_AI.get_val_for_ai_with_fixed_length_decimals`: normalize the
value of a decimal-scaled AI, computing the implicit 4th AI digit.  The
`len(ai) == 4` branch of the source contains only `pass` and the
function then ends without a `return`, so Python returns `None`,
modelled as `none`. -/
def get_val_for_ai_with_fixed_length_decimals (ai val : List Char) :
    Option (List Char × List Char) :=
  if memStr AI_VS_FIXED_LENGTH_WITH_DECIMAL (String.mk (ai.take 3)) = false then
    some (ai, val)
  else if pyFloatOk val = false then some (ai ++ "0".toList, val)
  else if ai.length = 3 then
    if hasDot val = false then
      let v := if val.length < 6 then zfill val 6 else val
      some (ai ++ "0".toList, v.take 6)
    else
      let m := (pySplitDot val).1
      let f := (pySplitDot val).2
      if val.length < 7 then
        let f2 := f ++ List.replicate (7 - val.length) '0'
        some (ai ++ numStr f2.length, m ++ f2)
      else if 7 < val.length then
        if 6 < m.length then some (ai ++ "0".toList, m.take 6)
        else
          let f2 := f.take (6 - m.length)
          some (ai ++ numStr f2.length, m ++ f2)
      else some (ai ++ numStr f.length, m ++ f)
  else if ai.length = 4 then none
  else some (ai, val)

/-- `Gs1_128_AI.get_code_and_val`: resolve a symbolic AI name, then apply
the fixed-length or decimal-scaled rules.  For a fixed-length date AI
(`11`..`17`) whose value has the wrong length, the source calls
`self.is_date_format_correct(val)`; `is_date_format_correct` is a
`@staticmethod` declared with parameters `(self, date)`, so the single
argument binds to `self` and Python raises `TypeError` for the missing
`date` argument before the function body runs — modelled as
`.error .typeError`. -/
def get_code_and_val (ai val : List Char) :
    Except PyErr (Option (List Char × List Char)) :=
  let ai2 := match lookupStr AI_NAME_TO_CODE (String.mk ai) with
    | some c => c.toList
    | none => ai
  match lookupNat AI_VS_FIXED_LENGTH (String.mk ai2) with
  | some n =>
      if val.length ≠ n then
        if memStr DATE_AIS (String.mk ai2) then .error .typeError
        else .ok (some (ai2, val))
      else .ok (some (ai2, val))
  | none =>
      if 3 ≤ ai2.length ∧ ai2.length ≤ 4 ∧
          memStr AI_VS_FIXED_LENGTH_WITH_DECIMAL (String.mk (ai2.take 3)) then
        .ok (get_val_for_ai_with_fixed_length_decimals ai2 val)
      else .ok (some (ai2, val))

/-- The bracket-counting loop of `Gs1_128_AI.check_if_code_correct`:
`+1` for `(`, `-1` for `)`, other characters skipped. -/
def bracketLoop : List Char → Int → Int
  | [], acc => acc
  | c :: r, acc =>
      if c = '(' then bracketLoop r (acc + 1)
      else if c = ')' then bracketLoop r (acc - 1)
      else bracketLoop r acc

/-- `Gs1_128_AI.check_if_code_correct`: an empty code is rejected
outright; otherwise the code is accepted iff the bracket counter ends
at zero. -/
def check_if_code_correct (code : List Char) : Bool :=
  if code.isEmpty then false
  else decide (bracketLoop code 0 = 0)

/-- `Gs1_128_AI.is_fnc1_required`. -/
def is_fnc1_required (ai : List Char) : Bool :=
  memStr AI_WITH_FNC1 (String.mk ai)

/-- The loop of `Gs1_128_AI.create_code`, accumulating the
separator-needing string `w` (`ais_with_nfc1`) and the no-separator
string `wo` (`ais_without_nfc1`).  The entries are whatever the
constructor stored in `self.ai_value`; unpacking a `None` entry raises
`TypeError`. -/
def ccLoop (sorted_ais : Bool) :
    List (Option (List Char × List Char)) → List Char → List Char →
    Except PyErr (List Char × List Char)
  | [], w, wo => .ok (w, wo)
  | none :: _, _, _ => .error .typeError
  | some p :: rest, w, wo =>
      if sorted_ais then
        if is_fnc1_required p.1 then
          ccLoop sorted_ais rest (w ++ p.1 ++ p.2 ++ [FNC1_CHAR]) wo
        else ccLoop sorted_ais rest w (wo ++ p.1 ++ p.2)
      else
        let w2 := w ++ p.1 ++ p.2
        ccLoop sorted_ais rest
          (if is_fnc1_required p.1 then w2 ++ [FNC1_CHAR] else w2) wo

/-- Strip one trailing separator (`ais_with_nfc1.endswith(FC_CHAR)`). -/
def stripTrailingFC (w : List Char) : List Char :=
  if w.getLast? = some FNC1_CHAR then w.dropLast else w

/-- `Gs1_128_AI.create_code`: partition (or keep the order of) the AI
pairs, append a separator after each separator-needing pair, strip a
trailing separator, and prefix the FNC1 character. -/
def create_code (sorted_ais : Bool)
    (ai_value : List (Option (List Char × List Char))) :
    Except PyErr (List Char) :=
  match ccLoop sorted_ais ai_value [] [] with
  | .ok p => .ok (FNC1_CHAR :: (p.2 ++ stripTrailingFC p.1))
  | .error e => .error e

/-- The normalization loop of `Gs1_128_AI.__init__` for list/tuple input:
`self.ai_value.append(self.get_code_and_val(ai, val))` for each pair. -/
def normalizePairs : List (List Char × List Char) →
    Except PyErr (List (Option (List Char × List Char)))
  | [] => .ok []
  | p :: r =>
      match get_code_and_val p.1 p.2 with
      | .error e => .error e
      | .ok x =>
          match normalizePairs r with
          | .error e => .error e
          | .ok xs => .ok (x :: xs)

/-- The sorted-mode output of `create_code` written from the spec's words
("emit all no-separator pairs first (concatenated with no separator),
then all separator-needing pairs each followed by the separator
character — except a trailing separator at the very end of the whole
string is stripped", the whole prefixed with the FNC1 character). -/
def specSortedCode (pairs : List (List Char × List Char)) : List Char :=
  let noSep :=
    ((pairs.filter (fun p => !is_fnc1_required p.1)).map
      (fun p => p.1 ++ p.2)).flatten
  let withSep :=
    ((pairs.filter (fun p => is_fnc1_required p.1)).map
      (fun p => p.1 ++ p.2 ++ [FNC1_CHAR])).flatten
  FNC1_CHAR :: (noSep ++ stripTrailingFC withSep)

theorem csAux_eq_wsAux (r : List Nat) : ∀ i : Nat, 1 ≤ i → csAux i r = wsAux i r := by
  induction r with
  | nil => intro i _; rfl
  | cons v rest ih =>
      intro i hi
      unfold csAux wsAux
      rw [if_neg (by omega), ih (i + 1) (by omega)]

theorem calculate_checksum_eq_weightedSum (l : List Nat) :
    _calculate_checksum l = weightedSum l % 103 := by
  cases l with
  | nil => rfl
  | cons e0 rest =>
      have h1 : _calculate_checksum (e0 :: rest) = (e0 + csAux 1 rest) % 103 := rfl
      have h2 : weightedSum (e0 :: rest) = e0 + wsAux 1 rest := rfl
      rw [h1, h2, csAux_eq_wsAux rest 1 (by omega)]

/-- Claim C1: for every input accepted by `Code128` (on which `_build`
completes), the checksum appended by `build` equals the weighted sum over
the emitted symbol sequence including the START code — position 0
unweighted, position `i ≥ 1` contributing `value * i` — taken modulo
103, and this checksum always lies in `[0, 102]`. -/
theorem C1_build_appends_weighted_checksum (code : List Char) (enc : List Nat)
    (st' : St) (lg : List (Char × List Char))
    (h : _build code (Code128.init code) = .ok (enc, st', lg)) :
    build code (Code128.init code) = .ok (enc ++ [weightedSum enc % 103], st') ∧
    weightedSum enc % 103 ≤ 102 := by
  constructor
  · simp [build, h, calculate_checksum_eq_weightedSum]
  · have h2 : weightedSum enc % 103 < 103 := Nat.mod_lt _ (by norm_num)
    omega

theorem C1_witness :
    _build ("42".toList) (Code128.init ("42".toList)) =
      .ok ([105, 42], ⟨'C', []⟩, []) ∧
    (build ("42".toList) (Code128.init ("42".toList)) =
      .ok ([105, 42] ++ [weightedSum [105, 42] % 103], ⟨'C', []⟩) ∧
    weightedSum [105, 42] % 103 ≤ 102) :=
  ⟨rfl, C1_build_appends_weighted_checksum _ _ _ _ rfl⟩

/-- Claim C2 is refuted: `_charset` persists on the instance after
`build`, so a second successive `build` call can start from a different
charset and produce a different sequence and checksum.  On `"123"` the
first call (initial charset `C`) yields `[105, 12, 100, 19]` plus
checksum 65 and leaves `_charset = 'B'`; the second call yields
`[104, 17, 18, 19]` plus checksum 8. -/
theorem C2_counterexample :
    build ("123".toList) (Code128.init ("123".toList)) =
      .ok ([105, 12, 100, 19, 65], ⟨'B', []⟩) ∧
    build ("123".toList) ⟨'B', []⟩ = .ok ([104, 17, 18, 19, 8], ⟨'B', []⟩) ∧
    ([105, 12, 100, 19, 65] : List Nat) ≠ [104, 17, 18, 19, 8] :=
  ⟨rfl, rfl, by decide⟩

/-- Claim C2 (amended): encoding is deterministic as a function of the
instance state `(code, _charset, _buffer)`; in particular two successive
`build`/`encoded` invocations with the code unchanged produce the same
symbol sequence and checksum whenever the first call returns the
instance to its starting charset and buffer (the second call may
otherwise differ, e.g. on `"123"`). -/
theorem C2_build_state_determinism (code : List Char) (st st2 : St)
    (enc : List Nat) (h : build code st = .ok (enc, st2))
    (hc : st2.charset = st.charset) (hb : st2.buffer = st.buffer) :
    build code st2 = .ok (enc, st2) := by
  have he : st2 = st := by
    cases st; cases st2; simp_all
  rw [he] at h ⊢
  exact h

theorem C2_witness :
    build ("42".toList) ⟨'C', []⟩ = .ok ([105, 42, 44], (⟨'C', []⟩ : St)) ∧
    build ("42".toList) (⟨'C', []⟩ : St) = .ok ([105, 42, 44], ⟨'C', []⟩) :=
  ⟨rfl,
   C2_build_state_determinism ("42".toList) ⟨'C', []⟩ ⟨'C', []⟩ [105, 42, 44]
     rfl rfl rfl⟩

theorem pyIsDigit_iff (c : Char) : pyIsDigit c = true ↔ '0' ≤ c ∧ c ≤ '9' := by
  simp [pyIsDigit, Char.isDigit]
  exact ⟨fun h => ⟨h.1, h.2⟩, fun h => ⟨h.1, h.2⟩⟩

/-- Claim C5: the initial charset chosen by `_guess_charset` is `C` when
every character of the input is a decimal digit and `B` otherwise; in
particular every all-digit input starts in `C`. -/
theorem C5_guess_charset (code : List Char) :
    ((∀ c ∈ code, '0' ≤ c ∧ c ≤ '9') → _guess_charset code = 'C') ∧
    ((∃ c ∈ code, ¬('0' ≤ c ∧ c ≤ '9')) → _guess_charset code = 'B') := by
  constructor
  · intro h
    unfold _guess_charset
    rw [if_pos]
    rw [List.all_eq_true]
    intro c hc
    exact (pyIsDigit_iff c).2 (h c hc)
  · rintro ⟨c, hc, hnd⟩
    unfold _guess_charset
    rw [if_neg]
    intro hall
    rw [List.all_eq_true] at hall
    exact hnd ((pyIsDigit_iff c).1 (hall c hc))

theorem C5_witness :
    _guess_charset ("12".toList) = 'C' ∧ _guess_charset ("1a".toList) = 'B' :=
  ⟨(C5_guess_charset _).1 (by decide), (C5_guess_charset _).2 (by decide)⟩

/-- Claim C3 concerns a code bug: for the fixed-length date AIs
(`11`..`17`) with a wrong-length value, `get_code_and_val` calls
`self.is_date_format_correct(val)`, but `is_date_format_correct` is a
`@staticmethod` declared `(self, date)`, so the call raises `TypeError`
instead of emitting the non-fatal warning the spec describes.  The
non-date fixed-length AIs (`00`, `01`, `02`, `20`) do behave as claimed:
a warning only, value passed through unmodified. -/
theorem C3_date_ai_wrong_length_raises :
    get_code_and_val ("11".toList) ("2406".toList) = .error .typeError ∧
    get_code_and_val ("00".toList) ("123".toList) =
      .ok (some ("00".toList, "123".toList)) ∧
    get_code_and_val ("20".toList) ("xyz".toList) =
      .ok (some ("20".toList, "xyz".toList)) :=
  ⟨rfl, rfl, rfl⟩

theorem bracketLoop_eq_counts (l : List Char) :
    ∀ acc : Int, bracketLoop l acc = acc + l.count '(' - l.count ')' := by
  induction l with
  | nil => intro acc; simp [bracketLoop]
  | cons c r ih =>
      intro acc
      show (if c = '(' then bracketLoop r (acc + 1)
            else if c = ')' then bracketLoop r (acc - 1)
            else bracketLoop r acc) = _
      by_cases h1 : c = '('
      · rw [if_pos h1, ih]
        subst h1
        simp [List.count_cons]
        omega
      · by_cases h2 : c = ')'
        · rw [if_neg h1, if_pos h2, ih]
          subst h2
          simp [List.count_cons, h1]
          omega
        · rw [if_neg h1, if_neg h2, ih]
          simp [List.count_cons, h1, h2]

/-- Claim C8 is refuted at the empty string: both bracket counts are 0,
yet `check_if_code_correct("")` returns `False` (the source rejects a
falsy code outright before counting). -/
theorem C8_counterexample :
    ¬(check_if_code_correct [] = true ↔
      ([] : List Char).count '(' = ([] : List Char).count ')') := by
  decide

/-- Claim C8 (amended): for every nonempty string, `check_if_code_correct`
returns true iff the count of `(` equals the count of `)`; the empty
string is rejected outright. -/
theorem C8_bracket_balance (l : List Char) (h : l ≠ []) :
    (check_if_code_correct l = true ↔ l.count '(' = l.count ')') ∧
    check_if_code_correct [] = false := by
  refine ⟨?_, rfl⟩
  unfold check_if_code_correct
  rw [if_neg (by simpa using h)]
  rw [decide_eq_true_eq, bracketLoop_eq_counts l 0]
  omega

theorem C8_witness :
    ("(a)".toList ≠ []) ∧
    ((check_if_code_correct ("(a)".toList) = true ↔
      ("(a)".toList).count '(' = ("(a)".toList).count ')') ∧
    check_if_code_correct [] = false) :=
  ⟨by decide, C8_bracket_balance _ (by decide)⟩

theorem ccLoop_sorted_append (pairs : List (List Char × List Char)) :
    ∀ w wo : List Char, ccLoop true (pairs.map some) w wo =
      .ok (w ++ ((pairs.filter (fun p => is_fnc1_required p.1)).map
              (fun p => p.1 ++ p.2 ++ [FNC1_CHAR])).flatten,
           wo ++ ((pairs.filter (fun p => !is_fnc1_required p.1)).map
              (fun p => p.1 ++ p.2)).flatten) := by
  induction pairs with
  | nil => intro w wo; simp [ccLoop]
  | cons p rest ih =>
      intro w wo
      cases hf : is_fnc1_required p.1 with
      | true =>
          show ccLoop true (some p :: rest.map some) w wo = _
          unfold ccLoop
          rw [if_pos rfl, if_pos hf, ih]
          simp [List.filter_cons, hf, List.append_assoc]
      | false =>
          show ccLoop true (some p :: rest.map some) w wo = _
          unfold ccLoop
          rw [if_pos rfl, if_neg (by simp [hf]), ih]
          simp [List.filter_cons, hf, List.append_assoc]

/-- Claim C7 (amended): when `sorted_ais` is true, `create_code` emits all
pairs whose AI needs no FNC1 separator first, concatenated with no
separator, then every separator-needing pair each followed by the
separator character, stripping a trailing separator at the very end —
exactly the construction `specSortedCode` written from the spec's words.
For the example pairs `[("01", 14 digits), ("11", "240621"),
("17", "250621"), ("21", "xyz")]` the only separator-needing pair,
`("21", "xyz")`, comes last, so its trailing separator is stripped and
the separator appears nowhere after the leading FNC1 prefix — in
particular not between the `("17", …)` and `("21", …)` fields. -/
theorem C7_create_code_sorted (pairs : List (List Char × List Char)) :
    create_code true (pairs.map some) = .ok (specSortedCode pairs) := by
  unfold create_code specSortedCode
  rw [ccLoop_sorted_append pairs [] []]
  simp

/-- Claim C7 is refuted on its own example: with
`[("01", "01234567891011"), ("11", "240621"), ("17", "250621"),
("21", "xyz")]` the single separator-needing pair `("21", "xyz")` is
emitted last and its trailing separator is stripped, so no separator
character occurs after the leading FNC1 prefix — the claim asserts one
between the `("17", …)` and `("21", …)` fields. -/
theorem C7_counterexample :
    create_code true
      [some ("01".toList, "01234567891011".toList),
       some ("11".toList, "240621".toList),
       some ("17".toList, "250621".toList),
       some ("21".toList, "xyz".toList)] =
      .ok (FNC1_CHAR :: ("0101234567891011112406211725062121xyz".toList)) ∧
    FNC1_CHAR ∉ ("0101234567891011112406211725062121xyz".toList) :=
  ⟨rfl, by decide⟩

theorem singleton_toList (c : Char) : (String.singleton c).toList = [c] := rfl

theorem convert_buffer_of_not_digit (cs : Char) (buf : List Char) (k : String)
    (hk : pyStrIsDigit k = false) : (_convert cs buf k).2 = buf := by
  unfold _convert
  split
  · rfl
  · split
    · rfl
    · split
      · split
        · rfl
        · rw [if_neg (by simp [hk])]
      · rfl

theorem convert_buffer_le (cs : Char) (buf : List Char) (k : String)
    (hb : buf.length ≤ 1) (hk : k.toList.length ≤ 1) :
    ((_convert cs buf k).2).length ≤ 1 := by
  unfold _convert
  split
  · simpa using hb
  · split
    · simpa using hb
    · split
      · split
        · simpa using hb
        · split
          · dsimp only
            split
            · simp
            · rename_i h2
              simp only [List.length_append] at h2 ⊢
              omega
          · simpa using hb
      · simpa using hb

theorem pyStrIsDigit_switchKey (w : Char) : pyStrIsDigit (switchKey w) = false := by
  unfold switchKey
  split
  · decide
  · split
    · decide
    · decide

theorem new_charset_buffer (st : St) (w : Char) :
    (_new_charset st w).2.buffer = st.buffer :=
  convert_buffer_of_not_digit _ _ _ (pyStrIsDigit_switchKey w)

theorem maybeSwitch_buffer_le (st : St) (sfx : List Char)
    (hb : st.buffer.length ≤ 1) :
    ((_maybe_switch_charset st sfx).2.1).buffer.length ≤ 1 := by
  cases sfx with
  | nil => simpa [_maybe_switch_charset] using hb
  | cons char rest =>
      unfold _maybe_switch_charset
      dsimp only
      split
      · split
        · split
          · simp
          · simpa [new_charset_buffer] using hb
        · split
          · split
            · simp
            · simpa [new_charset_buffer] using hb
          · split
            · simp
            · simpa using hb
      · split
        · split
          · simpa [new_charset_buffer] using hb
          · split
            · simpa [new_charset_buffer] using hb
            · simpa using hb
        · split
          · split
            · simpa [new_charset_buffer] using hb
            · split
              · simpa [new_charset_buffer] using hb
              · simpa using hb
          · simpa using hb

theorem encodeStep_buffer_le (st : St) (sfx : List Char)
    (hb : st.buffer.length ≤ 1) :
    ((encodeStep st sfx).2.1).buffer.length ≤ 1 := by
  cases sfx with
  | nil => simpa [encodeStep] using hb
  | cons c rest =>
      exact convert_buffer_le _ _ _ (maybeSwitch_buffer_le st _ hb)
        (by simp [singleton_toList])

theorem bodyStates_buffer_le : ∀ (code : List Char) (st : St),
    st.buffer.length ≤ 1 → ∀ s ∈ bodyStates st code, s.buffer.length ≤ 1 := by
  intro code
  induction code with
  | nil =>
      intro st hb s hs
      simp [bodyStates] at hs
      subst hs
      exact hb
  | cons c rest ih =>
      intro st hb s hs
      simp only [bodyStates, List.mem_cons] at hs
      rcases hs with h | h
      · subst h; exact hb
      · exact ih _ (encodeStep_buffer_le st _ hb) s h

theorem encodeBody_buffer_le : ∀ (code : List Char) (st : St),
    st.buffer.length ≤ 1 → ((encodeBody st code).2.1).buffer.length ≤ 1 := by
  intro code
  induction code with
  | nil => intro st hb; simpa [encodeBody] using hb
  | cons c rest ih =>
      intro st hb
      exact ih _ (encodeStep_buffer_le st _ hb)

theorem digit_ne_fnc1 (d : Char) (h : pyIsDigit d = true) : d ≠ FNC1_CHAR := by
  intro he
  rw [he] at h
  exact absurd h (by decide)

theorem tableC_digit_none (d : Char) (h : pyIsDigit d = true) :
    tableC (String.singleton d) = none := by
  show (if d = FNC1_CHAR then some 102 else none) = none
  rw [if_neg (digit_ne_fnc1 d h)]

theorem pyStrIsDigit_singleton (d : Char) (h : pyIsDigit d = true) :
    pyStrIsDigit (String.singleton d) = true := by
  simp [pyStrIsDigit, singleton_toList, h]

/-- Claim C9: during every encode pass started from a fresh instance, the
pending-digit buffer holds at most one character at every loop step, it
is empty when `_build`'s encoding (`buildEncoded`) returns, and whenever
a second digit is appended while in charset `C`, `_convert` immediately
flushes the two digits to a single packed symbol value and resets the
buffer to empty. -/
theorem C9_buffer_invariant (code : List Char) :
    (∀ s ∈ bodyStates (Code128.init code) code, s.buffer.length ≤ 1) ∧
    (buildEncoded code (Code128.init code)).2.1.buffer = [] ∧
    (∀ (b : List Char) (d : Char), b.length = 1 → pyIsDigit d = true →
      _convert 'C' b (String.singleton d) = (some (pyInt (b ++ [d])), [])) := by
  refine ⟨bodyStates_buffer_le code _ (by simp [Code128.init]), ?_, ?_⟩
  · unfold buildEncoded
    dsimp only
    split
    · simp
    · rename_i h
      have h2 := encodeBody_buffer_le code (Code128.init code)
        (by simp [Code128.init])
      have h3 : ((encodeBody (Code128.init code) code).2.1).buffer.length = 0 := by
        omega
      exact List.length_eq_zero.1 h3
  · intro b d hb hd
    unfold _convert
    rw [if_neg (by decide), if_neg (by decide), if_pos rfl]
    simp [tableC_digit_none d hd, pyStrIsDigit_singleton d hd,
      singleton_toList, hb]

theorem C9_witness :
    ((⟨'C', []⟩ : St) ∈ bodyStates (Code128.init ("1".toList)) ("1".toList)) ∧
    (⟨'C', ([] : List Char)⟩ : St).buffer.length ≤ 1 ∧
    (buildEncoded ("1".toList) (Code128.init ("1".toList))).2.1.buffer = [] ∧
    _convert 'C' ['7'] (String.singleton '3') =
      (some (pyInt (['7'] ++ ['3'])), []) :=
  ⟨by decide, (C9_buffer_invariant ("1".toList)).1 _ (by decide),
   (C9_buffer_invariant ("1".toList)).2.1,
   (C9_buffer_invariant ("1".toList)).2.2 ['7'] '3' rfl (by decide)⟩

theorem takeWhile_take (p : Char → Bool) :
    ∀ (l : List Char) (n : Nat),
      (l.take n).takeWhile p = (l.takeWhile p).take n := by
  intro l
  induction l with
  | nil => intro n; simp
  | cons c r ih =>
      intro n
      cases n with
      | zero => simp
      | succ m =>
          cases hp : p c with
          | true => simp [List.take_succ_cons, List.takeWhile_cons, hp, ih]
          | false => simp [List.take_succ_cons, List.takeWhile_cons, hp]

theorem maybeSwitch_log_entries (st : St) (sfx : List Char) :
    ∀ e ∈ (_maybe_switch_charset st sfx).2.2,
      e.2 = sfx ∧ (e.1 = 'C' → lookNext (sfx.take 10) = true) := by
  intro e he
  cases sfx with
  | nil => simp [_maybe_switch_charset] at he
  | cons char rest =>
      unfold _maybe_switch_charset at he
      dsimp only at he
      split at he
      · split at he
        · split at he <;> (simp at he; subst he; exact ⟨rfl, by simp⟩)
        · split at he
          · split at he <;> (simp at he; subst he; exact ⟨rfl, by simp⟩)
          · split at he <;> simp at he
      · split at he
        · split at he
          · rename_i hlook
            simp at he
            subst he
            exact ⟨rfl, fun _ => hlook⟩
          · split at he
            · simp at he
              subst he
              exact ⟨rfl, by simp⟩
            · simp at he
        · split at he
          · split at he
            · rename_i hlook
              simp at he
              subst he
              exact ⟨rfl, fun _ => hlook⟩
            · split at he
              · simp at he
                subst he
                exact ⟨rfl, by simp⟩
              · simp at he
          · simp at he

theorem encodeBody_log_entries : ∀ (code : List Char) (st : St),
    ∀ e ∈ (encodeBody st code).2.2,
      e.2 ∈ code.tails ∧ (e.1 = 'C' → lookNext (e.2.take 10) = true) := by
  intro code
  induction code with
  | nil => intro st e he; simp [encodeBody] at he
  | cons c rest ih =>
      intro st e he
      have hdecomp : (encodeBody st (c :: rest)).2.2 =
          (_maybe_switch_charset st (c :: rest)).2.2 ++
          (encodeBody (encodeStep st (c :: rest)).2.1 rest).2.2 := rfl
      rw [hdecomp] at he
      rcases List.mem_append.1 he with h | h
      · obtain ⟨h1, h2⟩ := maybeSwitch_log_entries st (c :: rest) e h
        refine ⟨?_, ?_⟩
        · rw [h1, List.mem_tails]
        · rw [h1]; exact h2
      · obtain ⟨h1, h2⟩ := ih _ e h
        refine ⟨?_, h2⟩
        rw [List.mem_tails] at h1 ⊢
        exact h1.trans (List.suffix_cons c rest)

theorem buildEncoded_log_entries (code : List Char) (st : St) :
    ∀ e ∈ (buildEncoded code st).2.2,
      e.2 ∈ code.tails ∧ (e.1 = 'C' → lookNext (e.2.take 10) = true) := by
  intro e he
  unfold buildEncoded at he
  dsimp only at he
  split at he
  · rcases List.mem_append.1 he with h | h
    · exact encodeBody_log_entries code st e h
    · simp at h
      subst h
      refine ⟨?_, by intro hC; exact absurd hC (by decide)⟩
      rw [List.mem_tails]
      exact List.nil_suffix
  · exact encodeBody_log_entries code st e he

/-- Claim C6: the ghost switch log of `buildEncoded` records every
`_new_charset` call with the input suffix at which it happened.  A
switch to charset `C` is logged only when `look_next` holds at that
position — strictly more than 3 of the at most 10 looked-ahead
characters, starting at the current one, are consecutive digits — and
consequently, for every input with no run of 4 or more consecutive
digits, the encoder never emits a switch-to-C code during the pass. -/
theorem C6_no_switch_to_C (code : List Char) :
    (∀ e ∈ (buildEncoded code (Code128.init code)).2.2,
       e.1 = 'C' → lookNext (e.2.take 10) = true) ∧
    (no4Run code = true →
       ∀ e ∈ (buildEncoded code (Code128.init code)).2.2, e.1 ≠ 'C') := by
  constructor
  · intro e he
    exact (buildEncoded_log_entries code _ e he).2
  · intro hno e he hC
    obtain ⟨ht, hlook⟩ := buildEncoded_log_entries code _ e he
    have h3 := hlook hC
    unfold no4Run at hno
    rw [List.all_eq_true] at hno
    have h4 := hno e.2 ht
    rw [decide_eq_true_eq] at h4
    unfold lookNext at h3
    rw [decide_eq_true_eq, takeWhile_take] at h3
    simp only [List.length_take] at h3
    omega

theorem C6_witness :
    (('C', "1234a".toList) ∈
      (buildEncoded ("1234a".toList) (Code128.init ("1234a".toList))).2.2) ∧
    lookNext ((('C', "1234a".toList).2).take 10) = true ∧
    no4Run [Char.ofNat 1] = true ∧
    (('A', [Char.ofNat 1]) ∈
      (buildEncoded [Char.ofNat 1] (Code128.init [Char.ofNat 1])).2.2) ∧
    ('A', [Char.ofNat 1]).1 ≠ 'C' :=
  ⟨by decide, (C6_no_switch_to_C ("1234a".toList)).1 _ (by decide) rfl,
   by decide, by decide,
   (C6_no_switch_to_C [Char.ofNat 1]).2 (by decide) _ (by decide)⟩

theorem lookupStr_none_of_all (t : List (String × String)) (s : String)
    (P : String → Bool) (hall : (t.map Prod.fst).all P = true)
    (hs : P s = false) : lookupStr t s = none := by
  induction t with
  | nil => rfl
  | cons p r ih =>
      simp only [List.map_cons, List.all_cons, Bool.and_eq_true] at hall
      unfold lookupStr
      rw [if_neg]
      · exact ih hall.2
      · intro he
        rw [he, hall.1] at hs
        simp at hs

theorem lookupNat_none_of_all (t : List (String × Nat)) (s : String)
    (P : String → Bool) (hall : (t.map Prod.fst).all P = true)
    (hs : P s = false) : lookupNat t s = none := by
  induction t with
  | nil => rfl
  | cons p r ih =>
      simp only [List.map_cons, List.all_cons, Bool.and_eq_true] at hall
      unfold lookupNat
      rw [if_neg]
      · exact ih hall.2
      · intro he
        rw [he, hall.1] at hs
        simp at hs

theorem nameTable_no_decfam_key :
    ((AI_NAME_TO_CODE.map Prod.fst).all
      (fun k => !(memStr AI_VS_FIXED_LENGTH_WITH_DECIMAL
        (String.mk (k.toList.take 3))))) = true := by
  decide

theorem fixTable_keys_len2 :
    ((AI_VS_FIXED_LENGTH.map Prod.fst).all
      (fun k => decide (k.toList.length = 2))) = true := by
  decide

/-- Claim C10: for every AI string of length 4 whose first three
characters are in the decimal-scaled fixed-length family and whose value
parses as a float, `get_val_for_ai_with_fixed_length_decimals` reaches
the `len(ai) == 4` branch, which contains no `return`, so it returns
`None`; `get_code_and_val` therefore returns `None`, the constructor
stores `None` among the normalized pairs, and `create_code` raises
`TypeError` when it unpacks that entry. -/
theorem C10_four_digit_decimal_ai_returns_none (ai val : List Char)
    (h1 : ai.length = 4)
    (h2 : memStr AI_VS_FIXED_LENGTH_WITH_DECIMAL (String.mk (ai.take 3)) = true)
    (h3 : pyFloatOk val = true) :
    get_val_for_ai_with_fixed_length_decimals ai val = none ∧
    get_code_and_val ai val = .ok none ∧
    normalizePairs [(ai, val)] = .ok [none] ∧
    create_code true [none] = .error .typeError := by
  have hname : lookupStr AI_NAME_TO_CODE (String.mk ai) = none := by
    apply lookupStr_none_of_all _ _
      (fun k => !(memStr AI_VS_FIXED_LENGTH_WITH_DECIMAL
        (String.mk (k.toList.take 3)))) nameTable_no_decfam_key
    show (!(memStr AI_VS_FIXED_LENGTH_WITH_DECIMAL
      (String.mk (((String.mk ai).toList).take 3)))) = false
    rw [show (String.mk ai).toList = ai from rfl, h2]
    rfl
  have hfix : lookupNat AI_VS_FIXED_LENGTH (String.mk ai) = none := by
    apply lookupNat_none_of_all _ _ (fun k => decide (k.toList.length = 2))
      fixTable_keys_len2
    show decide (((String.mk ai).toList).length = 2) = false
    rw [show (String.mk ai).toList = ai from rfl]
    simp [h1]
  have hval : get_val_for_ai_with_fixed_length_decimals ai val = none := by
    unfold get_val_for_ai_with_fixed_length_decimals
    rw [if_neg (by simp [h2]), if_neg (by simp [h3]),
      if_neg (by simp [h1]), if_pos h1]
  have hcv : get_code_and_val ai val = .ok none := by
    unfold get_code_and_val
    simp only [hname, hfix]
    rw [if_pos ⟨by omega, by omega, h2⟩, hval]
  exact ⟨hval, hcv, by simp [normalizePairs, hcv], rfl⟩

theorem C10_witness :
    ("3105".toList).length = 4 ∧
    memStr AI_VS_FIXED_LENGTH_WITH_DECIMAL
      (String.mk (("3105".toList).take 3)) = true ∧
    pyFloatOk ("612345".toList) = true ∧
    (get_val_for_ai_with_fixed_length_decimals ("3105".toList)
      ("612345".toList) = none ∧
    get_code_and_val ("3105".toList) ("612345".toList) = .ok none ∧
    normalizePairs [("3105".toList, "612345".toList)] = .ok [none] ∧
    create_code true [none] = .error .typeError) :=
  ⟨by decide, by decide, by decide,
   C10_four_digit_decimal_ai_returns_none _ _ (by decide) (by decide) (by decide)⟩

theorem digit_ne (d : Char) (h : pyIsDigit d = true) :
    d ≠ '.' ∧ d ≠ '+' ∧ d ≠ '-' := by
  refine ⟨?_, ?_, ?_⟩ <;> (intro he; rw [he] at h; exact absurd h (by decide))

theorem hasDot_false_of_digits (l : List Char)
    (h : ∀ c ∈ l, pyIsDigit c = true) : hasDot l = false := by
  induction l with
  | nil => rfl
  | cons c r ih =>
      unfold hasDot
      rw [if_neg ((digit_ne c (h c (by simp))).1)]
      exact ih (fun x hx => h x (by simp [hx]))

theorem hasDot_append_dot (m f : List Char)
    (hm : ∀ c ∈ m, pyIsDigit c = true) : hasDot (m ++ '.' :: f) = true := by
  induction m with
  | nil => simp [hasDot]
  | cons c r ih =>
      show hasDot (c :: (r ++ '.' :: f)) = true
      unfold hasDot
      rw [if_neg ((digit_ne c (hm c (by simp))).1)]
      exact ih (fun x hx => hm x (by simp [hx]))

theorem pySplitDot_append (m f : List Char)
    (hm : ∀ c ∈ m, pyIsDigit c = true) : pySplitDot (m ++ '.' :: f) = (m, f) := by
  induction m with
  | nil => simp [pySplitDot]
  | cons c r ih =>
      show pySplitDot (c :: (r ++ '.' :: f)) = (c :: r, f)
      unfold pySplitDot
      rw [if_neg ((digit_ne c (hm c (by simp))).1)]
      rw [ih (fun x hx => hm x (by simp [hx]))]

theorem takeWhile_of_all (l : List Char)
    (h : ∀ c ∈ l, pyIsDigit c = true) : l.takeWhile pyIsDigit = l := by
  induction l with
  | nil => rfl
  | cons c r ih =>
      rw [List.takeWhile_cons, if_pos (h c (by simp))]
      rw [ih (fun x hx => h x (by simp [hx]))]

theorem dropWhile_of_all (l : List Char)
    (h : ∀ c ∈ l, pyIsDigit c = true) : l.dropWhile pyIsDigit = [] := by
  induction l with
  | nil => rfl
  | cons c r ih =>
      rw [List.dropWhile_cons, if_pos (by simp [h c (by simp)])]
      exact ih (fun x hx => h x (by simp [hx]))

theorem takeWhile_append_all (m l2 : List Char)
    (hm : ∀ c ∈ m, pyIsDigit c = true) :
    (m ++ l2).takeWhile pyIsDigit = m ++ l2.takeWhile pyIsDigit := by
  induction m with
  | nil => rfl
  | cons c r ih =>
      show (c :: (r ++ l2)).takeWhile pyIsDigit = _
      rw [List.takeWhile_cons, if_pos (hm c (by simp))]
      rw [ih (fun x hx => hm x (by simp [hx]))]
      rfl

theorem dropWhile_append_all (m l2 : List Char)
    (hm : ∀ c ∈ m, pyIsDigit c = true) :
    (m ++ l2).dropWhile pyIsDigit = l2.dropWhile pyIsDigit := by
  induction m with
  | nil => rfl
  | cons c r ih =>
      show (c :: (r ++ l2)).dropWhile pyIsDigit = _
      rw [List.dropWhile_cons, if_pos (by simp [hm c (by simp)])]
      exact ih (fun x hx => hm x (by simp [hx]))

theorem stripSign_of_digits (l : List Char)
    (h : ∀ c ∈ l, pyIsDigit c = true) : stripSign l = l := by
  cases l with
  | nil => rfl
  | cons c r =>
      show (if c = '+' ∨ c = '-' then r else c :: r) = c :: r
      rw [if_neg]
      rintro (h1 | h1)
      · exact (digit_ne c (h c (by simp))).2.1 h1
      · exact (digit_ne c (h c (by simp))).2.2 h1

theorem pyFloatOk_digits (l : List Char)
    (h : ∀ c ∈ l, pyIsDigit c = true) (hne : l ≠ []) : pyFloatOk l = true := by
  unfold pyFloatOk
  rw [stripSign_of_digits l h, takeWhile_of_all l h, dropWhile_of_all l h]
  show (!l.isEmpty && expOk []) = true
  cases l with
  | nil => exact absurd rfl hne
  | cons c r => rfl

theorem stripSign_decimal (m f : List Char)
    (hm : ∀ c ∈ m, pyIsDigit c = true) :
    stripSign (m ++ '.' :: f) = m ++ '.' :: f := by
  cases m with
  | nil => rfl
  | cons c r =>
      show (if c = '+' ∨ c = '-' then r ++ '.' :: f
            else c :: (r ++ '.' :: f)) = c :: (r ++ '.' :: f)
      rw [if_neg]
      rintro (h1 | h1)
      · exact (digit_ne c (hm c (by simp))).2.1 h1
      · exact (digit_ne c (hm c (by simp))).2.2 h1

theorem pyFloatOk_decimal (m f : List Char)
    (hm : ∀ c ∈ m, pyIsDigit c = true) (hf : ∀ c ∈ f, pyIsDigit c = true)
    (hne : m ≠ [] ∨ f ≠ []) : pyFloatOk (m ++ '.' :: f) = true := by
  unfold pyFloatOk
  rw [stripSign_decimal m f hm, dropWhile_append_all m _ hm,
    takeWhile_append_all m _ hm]
  rw [show ('.' :: f).dropWhile pyIsDigit = '.' :: f from by
    rw [List.dropWhile_cons, if_neg (by decide)]]
  rw [show ('.' :: f).takeWhile pyIsDigit = [] from by
    rw [List.takeWhile_cons, if_neg (by decide)]]
  dsimp only
  rw [if_pos rfl, takeWhile_of_all f hf, dropWhile_of_all f hf]
  rcases hne with hne | hne
  · cases m with
    | nil => exact absurd rfl hne
    | cons c r => rfl
  · cases f with
    | nil => exact absurd rfl hne
    | cons c r => simp [expOk]

theorem zfill_digits (l : List Char)
    (h : ∀ c ∈ l, pyIsDigit c = true) (w : Nat) :
    zfill l w = List.replicate (w - l.length) '0' ++ l := by
  cases l with
  | nil => simp [zfill]
  | cons c r =>
      show (if c = '+' ∨ c = '-' then
              c :: (List.replicate (w - (c :: r).length) '0' ++ r)
            else List.replicate (w - (c :: r).length) '0' ++ (c :: r)) = _
      rw [if_neg]
      rintro (h1 | h1)
      · exact (digit_ne c (h c (by simp))).2.1 h1
      · exact (digit_ne c (h c (by simp))).2.2 h1

/-- Claim C4 is refuted on the short-total-length decimal rule: for
`('310', '6.1234')` the code pads the fraction until `main+fraction` has
6 characters (total value length including the dot reaches 7), returning
`('3105', '612340')` whose value part has length 6, not the 7 characters
the claim states. -/
theorem C4_counterexample :
    get_val_for_ai_with_fixed_length_decimals ("310".toList) ("6.1234".toList)
      = some ("3105".toList, "612340".toList) ∧
    ("612340".toList).length ≠ 7 :=
  ⟨rfl, by decide⟩

/-- Claim C4 (amended): for every 3-digit decimal-family AI,
`get_val_for_ai_with_fixed_length_decimals` implements the reference
rules with `main+fraction` normalized to 6 characters: an integer value
is zero-left-padded or truncated to 6 digits with implicit decimal
digit 0; a decimal value of total length less than 7 has its fractional part
right-padded with zeros until `main+fraction` is 6 characters (i.e.
until the total length including the dot is 7); total length greater than 7 with
`main` longer than 6 digits truncates `main` to 6 digits with decimal
digit 0, otherwise the fraction is truncated so `main+fraction` is 6
digits with decimal digit equal to the resulting fractional length; in
particular `('310','6.12345') → ('3105','612345')`,
`('310','23456') → ('3100','023456')`,
`('310','6123456.7') → ('3100','612345')`. -/
theorem C4_decimal_scaled_rules :
    (∀ ai val : List Char,
      memStr AI_VS_FIXED_LENGTH_WITH_DECIMAL (String.mk (ai.take 3)) = true →
      ai.length = 3 → (∀ c ∈ val, pyIsDigit c = true) → val ≠ [] →
      get_val_for_ai_with_fixed_length_decimals ai val =
        some (ai ++ "0".toList,
          (List.replicate (6 - val.length) '0' ++ val).take 6)) ∧
    (∀ ai m f : List Char,
      memStr AI_VS_FIXED_LENGTH_WITH_DECIMAL (String.mk (ai.take 3)) = true →
      ai.length = 3 → (∀ c ∈ m, pyIsDigit c = true) →
      (∀ c ∈ f, pyIsDigit c = true) → (m ≠ [] ∨ f ≠ []) →
      get_val_for_ai_with_fixed_length_decimals ai (m ++ '.' :: f) =
        (if m.length + f.length < 6 then
          some (ai ++ numStr (6 - m.length),
            m ++ f ++ List.replicate (6 - m.length - f.length) '0')
        else if 6 < m.length + f.length then
          (if 6 < m.length then some (ai ++ "0".toList, m.take 6)
           else some (ai ++ numStr (6 - m.length), m ++ f.take (6 - m.length)))
        else some (ai ++ numStr f.length, m ++ f))) ∧
    get_val_for_ai_with_fixed_length_decimals ("310".toList) ("6.12345".toList)
      = some ("3105".toList, "612345".toList) ∧
    get_val_for_ai_with_fixed_length_decimals ("310".toList) ("23456".toList)
      = some ("3100".toList, "023456".toList) ∧
    get_val_for_ai_with_fixed_length_decimals ("310".toList) ("6123456.7".toList)
      = some ("3100".toList, "612345".toList) := by
  refine ⟨?_, ?_, rfl, rfl, rfl⟩
  · intro ai val hfam h3 hd hne
    unfold get_val_for_ai_with_fixed_length_decimals
    rw [if_neg (by simp [hfam]),
      if_neg (by simp [pyFloatOk_digits val hd hne]),
      if_pos h3, if_pos (hasDot_false_of_digits val hd)]
    dsimp only
    by_cases hl : val.length < 6
    · rw [if_pos hl, zfill_digits val hd 6]
    · rw [if_neg hl]
      have h6 : 6 - val.length = 0 := by omega
      rw [h6]
      simp
  · intro ai m f hfam h3 hm hf hne
    unfold get_val_for_ai_with_fixed_length_decimals
    rw [if_neg (by simp [hfam]),
      if_neg (by simp [pyFloatOk_decimal m f hm hf hne]),
      if_pos h3,
      if_neg (by simp [hasDot_append_dot m f hm])]
    dsimp only
    rw [pySplitDot_append m f hm]
    dsimp only
    have hlen : (m ++ '.' :: f).length = m.length + f.length + 1 := by
      simp only [List.length_append, List.length_cons]
      omega
    rw [hlen]
    by_cases h7 : m.length + f.length < 6
    · rw [if_pos (show m.length + f.length + 1 < 7 by omega), if_pos h7]
      have hc : 7 - (m.length + f.length + 1) = 6 - m.length - f.length := by
        omega
      rw [hc]
      have hflen : (f ++ List.replicate (6 - m.length - f.length) '0').length
          = 6 - m.length := by
        simp [List.length_append]
        omega
      rw [hflen]
      simp [List.append_assoc]
    · rw [if_neg (by omega), if_neg h7]
      by_cases h8 : 6 < m.length + f.length
      · rw [if_pos (show 7 < m.length + f.length + 1 by omega), if_pos h8]
        by_cases h9 : 6 < m.length
        · simp only [if_pos h9]
        · simp only [if_neg h9]
          have hftake : (f.take (6 - m.length)).length = 6 - m.length := by
            simp only [List.length_take]
            omega
          rw [hftake]
      · rw [if_neg (by omega), if_neg h8]

theorem C4_witness :
    memStr AI_VS_FIXED_LENGTH_WITH_DECIMAL
      (String.mk (("310".toList).take 3)) = true ∧
    ("310".toList).length = 3 ∧
    (∀ c ∈ ("23456".toList), pyIsDigit c = true) ∧ ("23456".toList) ≠ [] ∧
    get_val_for_ai_with_fixed_length_decimals ("310".toList) ("23456".toList) =
      some ("310".toList ++ "0".toList,
        (List.replicate (6 - ("23456".toList).length) '0' ++
          "23456".toList).take 6) ∧
    get_val_for_ai_with_fixed_length_decimals ("310".toList)
        ("6".toList ++ '.' :: "1234".toList) =
      (if ("6".toList).length + ("1234".toList).length < 6 then
        some ("310".toList ++ numStr (6 - ("6".toList).length),
          "6".toList ++ "1234".toList ++
            List.replicate
              (6 - ("6".toList).length - ("1234".toList).length) '0')
      else if 6 < ("6".toList).length + ("1234".toList).length then
        (if 6 < ("6".toList).length then
          some ("310".toList ++ "0".toList, ("6".toList).take 6)
         else some ("310".toList ++ numStr (6 - ("6".toList).length),
          "6".toList ++ ("1234".toList).take (6 - ("6".toList).length)))
      else some ("310".toList ++ numStr (("1234".toList).length),
        "6".toList ++ "1234".toList)) :=
  ⟨by decide, by decide, by decide, by decide,
   C4_decimal_scaled_rules.1 ("310".toList) ("23456".toList)
     (by decide) (by decide) (by decide) (by decide),
   C4_decimal_scaled_rules.2.1 ("310".toList) ("6".toList) ("1234".toList)
     (by decide) (by decide) (by decide) (by decide) (.inl (by decide))⟩
